import Mathlib

/-!
Verification of the Modbus TCP client (modbus_client.go).

Bytes are naturals below 256 and 16-bit register words are naturals below
65536; Go uint16 arithmetic is modelled with explicit bounds or reductions
mod 65536.  Fallible steps return Option, where `none` models a Go runtime
panic (out-of-range slice or index), which aborts the process.
-/

namespace ModbusClient

/-- binary.BigEndian.Uint16 applied to the two-byte slice consisting of
`hi` followed by `lo`. -/
def bigEndianUint16 (hi lo : Nat) : Nat := hi * 256 + lo

/-- The Go conversion int16(w) for a 16-bit word `w`: two's-complement
reinterpretation of the bit pattern. -/
def toInt16 (w : Nat) : Int :=
  if w < 32768 then (w : Int) else (w : Int) - 65536

/-- binary.BigEndian.PutUint16: the two big-endian bytes of a uint16 value
(the caller guarantees v < 65536, a Go type invariant). -/
def putUint16 (v : Nat) : List Nat := [v / 256, v % 256]

/-- The decode loop of performReadOperation, shared by the signed and the
unsigned branch via the conversion `conv` (identity for the unsigned branch,
toInt16 for the signed branch):

  values := make of size count, zero-initialised
  for i := 0; i < len of response; i += 2 ... values at i/2 := conv of
  BigEndian.Uint16 of the slice response from i to i+2

The first list argument is the unprocessed tail of the response, i.e. the
slice from the loop index i on; `k` is i/2.  `none` models a Go runtime
panic: the slice from i to i+2 when i+1 = len of response (odd-length
payload), or the index k into values when k is not below count (payload
longer than twice count). -/
def decodeLoop (conv : Nat → α) (count : Nat) :
    List Nat → Nat → List α → Option (List α)
  | [], _, values => some values
  | [_], _, _ => none
  | hi :: lo :: rest, k, values =>
      if k < count then
        decodeLoop conv count rest (k + 1)
          (values.set k (conv (bigEndianUint16 hi lo)))
      else none

/-- The unsigned branch of performReadOperation's decode step: a buffer of
`count` uint16 zeros, overwritten word by word from the response. -/
def decodeUnsigned (response : List Nat) (count : Nat) : Option (List Nat) :=
  decodeLoop id count response 0 (List.replicate count 0)

/-- The signed branch of performReadOperation's decode step: a buffer of
`count` int16 zeros, overwritten with int16 reinterpretations word by word. -/
def decodeSigned (response : List Nat) (count : Nat) : Option (List Int) :=
  decodeLoop toInt16 count response 0 (List.replicate count 0)

/-- The data-building loop of writeMultipleCoils and writeMultipleRegisters:
data := make of size twice the number of values; for each value in input
order, PutUint16 stores its two big-endian bytes at offset 2i.  Since the
loop fills the buffer exactly, this is the concatenation of the byte pairs
in input order. -/
def encodeRegisters : List Nat → List Nat
  | [] => []
  | v :: vs => putUint16 v ++ encodeRegisters vs

/-- Helper for stating decode results: the sequence of big-endian 16-bit
words packed in a byte payload (ignoring a trailing odd byte). -/
def wordsOf : List Nat → List Nat
  | hi :: lo :: rest => bigEndianUint16 hi lo :: wordsOf rest
  | _ => []

/-- Helper for stating decode results: overwrite the elements of a list
starting at position k with the given words, in order. -/
def setAll : List α → Nat → List α → List α
  | values, _, [] => values
  | values, k, w :: ws => setAll (values.set k w) (k + 1) ws

theorem setAll_length (ws : List α) :
    ∀ (values : List α) (k : Nat), (setAll values k ws).length = values.length := by
  induction ws with
  | nil => intro values k; rfl
  | cons w ws ih =>
      intro values k
      simp [setAll, ih]

theorem setAll_cons (ws : List α) :
    ∀ (v : α) (values : List α) (k : Nat),
      setAll (v :: values) (k + 1) ws = v :: setAll values k ws := by
  induction ws with
  | nil => intro v values k; rfl
  | cons w ws ih =>
      intro v values k
      show setAll ((v :: values).set (k + 1) w) (k + 2) ws
        = v :: setAll (values.set k w) (k + 1) ws
      rw [List.set_cons_succ, ih]

theorem setAll_eq :
    ∀ (values : List α) (k : Nat) (ws : List α), k + ws.length ≤ values.length →
      setAll values k ws = values.take k ++ ws ++ values.drop (k + ws.length) := by
  intro values
  induction values with
  | nil =>
      intro k ws hk
      simp at hk
      obtain ⟨hk0, hw0⟩ := hk
      subst hk0
      subst hw0
      rfl
  | cons v rest ih =>
      intro k ws hk
      cases k with
      | zero =>
          cases ws with
          | nil => simp [setAll]
          | cons w ws =>
              show setAll ((v :: rest).set 0 w) 1 ws
                = List.take 0 (v :: rest) ++ (w :: ws)
                  ++ List.drop (0 + (w :: ws).length) (v :: rest)
              rw [List.set_cons_zero, setAll_cons,
                ih 0 ws (by simp only [List.length_cons] at hk; omega)]
              simp
      | succ k =>
          rw [setAll_cons, ih k ws (by simp only [List.length_cons] at hk; omega)]
          have hd : k + 1 + ws.length = (k + ws.length) + 1 := by omega
          rw [hd, List.take_succ_cons, List.drop_succ_cons]
          simp

theorem wordsOf_length :
    ∀ (P : List Nat), P.length % 2 = 0 → (wordsOf P).length = P.length / 2
  | [] => by intro _; rfl
  | [x] => by intro hx; simp at hx
  | hi :: lo :: rest => by
      intro h
      simp at h
      have := wordsOf_length rest (by omega)
      simp [wordsOf, this]
      omega

theorem decodeLoop_some_eq (conv : Nat → α) (count : Nat) :
    ∀ (resp : List Nat) (k : Nat) (values : List α),
      values.length = count → resp.length % 2 = 0 → resp.length ≤ 2 * (count - k) →
      decodeLoop conv count resp k values
        = some (setAll values k ((wordsOf resp).map conv))
  | [], k, values => by
      intro _ _ _
      simp [decodeLoop, wordsOf, setAll]
  | [x], k, values => by
      intro _ h _
      simp at h
  | hi :: lo :: rest, k, values => by
      intro hv heven hle
      simp only [List.length_cons] at heven hle
      have hk : k < count := by omega
      rw [decodeLoop, if_pos hk,
        decodeLoop_some_eq conv count rest (k + 1)
          (values.set k (conv (bigEndianUint16 hi lo)))
          (by simp [hv]) (by omega) (by omega)]
      rfl

theorem decodeLoop_none_iff (conv : Nat → α) (count : Nat) :
    ∀ (resp : List Nat) (k : Nat) (values : List α),
      (decodeLoop conv count resp k values = none
        ↔ resp.length % 2 = 1 ∨ 2 * (count - k) < resp.length)
  | [], k, values => by simp [decodeLoop]
  | [x], k, values => by simp [decodeLoop]
  | hi :: lo :: rest, k, values => by
      by_cases hk : k < count
      · rw [decodeLoop, if_pos hk,
          decodeLoop_none_iff conv count rest (k + 1)
            (values.set k (conv (bigEndianUint16 hi lo)))]
        simp only [List.length_cons]
        omega
      · rw [decodeLoop, if_neg hk]
        have hlt : 2 * (count - k) < rest.length + 1 + 1 := by omega
        simp [hlt]

theorem decodeUnsigned_eq (resp : List Nat) (count : Nat)
    (heven : resp.length % 2 = 0) (hle : resp.length ≤ 2 * count) :
    decodeUnsigned resp count
      = some (wordsOf resp ++ List.replicate (count - resp.length / 2) 0) := by
  have hw := wordsOf_length resp heven
  rw [decodeUnsigned,
    decodeLoop_some_eq id count resp 0 (List.replicate count 0)
      (List.length_replicate count 0) heven (by omega),
    List.map_id,
    setAll_eq (List.replicate count 0) 0 (wordsOf resp)
      (by rw [List.length_replicate]; omega)]
  simp [List.drop_replicate, hw]

theorem decodeSigned_eq (resp : List Nat) (count : Nat)
    (heven : resp.length % 2 = 0) (hle : resp.length ≤ 2 * count) :
    decodeSigned resp count
      = some ((wordsOf resp).map toInt16
          ++ List.replicate (count - resp.length / 2) 0) := by
  have hw := wordsOf_length resp heven
  rw [decodeSigned,
    decodeLoop_some_eq toInt16 count resp 0 (List.replicate count 0)
      (List.length_replicate count 0) heven (by omega),
    setAll_eq (List.replicate count 0) 0 ((wordsOf resp).map toInt16)
      (by rw [List.length_replicate, List.length_map]; omega)]
  simp [List.drop_replicate, hw]

theorem decodeUnsigned_none_iff (resp : List Nat) (count : Nat) :
    decodeUnsigned resp count = none
      ↔ resp.length % 2 = 1 ∨ 2 * count < resp.length := by
  rw [decodeUnsigned, decodeLoop_none_iff id count resp 0 (List.replicate count 0)]
  omega

theorem decodeSigned_none_iff (resp : List Nat) (count : Nat) :
    decodeSigned resp count = none
      ↔ resp.length % 2 = 1 ∨ 2 * count < resp.length := by
  rw [decodeSigned, decodeLoop_none_iff toInt16 count resp 0 (List.replicate count 0)]
  omega

theorem encode_wordsOf :
    ∀ (P : List Nat), P.length % 2 = 0 → (∀ b ∈ P, b < 256) →
      encodeRegisters (wordsOf P) = P
  | [] => by intro _ _; rfl
  | [x] => by intro hx _; simp at hx
  | hi :: lo :: rest => by
      intro heven hb
      simp only [List.length_cons] at heven
      have hlo : lo < 256 := hb lo (by simp)
      have hrec := encode_wordsOf rest (by omega)
        (fun b hmem => hb b (by simp [hmem]))
      simp only [wordsOf, encodeRegisters, putUint16, bigEndianUint16, hrec]
      have h1 : (hi * 256 + lo) / 256 = hi := by omega
      have h2 : (hi * 256 + lo) % 256 = lo := by omega
      rw [h1, h2]
      rfl

/-! ## Operational layer

The transport (goburrow modbus client) is an external collaborator: it is
modelled as an oracle giving, for each iteration index, either a byte
payload or a transport error (reads), respectively either an
acknowledgement or a transport error (writes).  Observable behaviour is a
trace of events: transport calls, reported outcomes (log.Printf lines) and
sleeps.  A Boolean flag records whether the run aborted with a runtime
panic.  Fuel models external cancellation: the process may be interrupted
after any iteration, and an unbounded loop runs until its fuel — the
cancellation budget — is exhausted. -/

/-- Result of one transport read call: a raw byte payload or an error
(errors are abstracted to a numeric code). -/
inductive TransportResult where
  | ok (payload : List Nat)
  | err (e : Nat)
deriving DecidableEq

/-- Result of one transport write call: an acknowledgement or an error. -/
inductive WriteResult where
  | ok
  | err (e : Nat)
deriving DecidableEq

/-- One observable event of a run. -/
inductive Event where
  | readCall (functionCode start count : Nat)
  | writeSingleCoilCall (address value : Nat)
  | writeSingleRegisterCall (address value : Nat)
  | writeMultipleCoilsCall (start quantity : Nat) (data : List Nat)
  | writeMultipleRegistersCall (start quantity : Nat) (data : List Nat)
  | reportValuesU (values : List Nat)
  | reportValuesS (values : List Int)
  | reportError (e : Nat)
  | reportWriteOk
  | sleep (ms : Nat)
deriving DecidableEq

/-- An event is a reported per-iteration outcome (a log.Printf line). -/
def isReport : Event → Bool
  | .reportValuesU _ => true
  | .reportValuesS _ => true
  | .reportError _ => true
  | .reportWriteOk => true
  | _ => false

/-- An event is a sleep. -/
def isSleep : Event → Bool
  | .sleep _ => true
  | _ => false

/-- The four read function codes the program dispatches on
(modbus.FuncCodeReadCoils etc.). -/
inductive ReadFunc where
  | readCoils
  | readDiscreteInputs
  | readHoldingRegisters
  | readInputRegisters
deriving DecidableEq

/-- The numeric Modbus function code of each read operation. -/
def funcCode : ReadFunc → Nat
  | .readCoils => 1
  | .readDiscreteInputs => 2
  | .readHoldingRegisters => 3
  | .readInputRegisters => 4

/-- The guard of every operation loop:
for i := 0; repeat <= 0 || i < repeat; i++ .
The counter starts at 0 and only increments, so it is a natural number
compared against the int-typed repeat flag. -/
def loopCond (rpt : Int) (i : Nat) : Bool :=
  decide (rpt ≤ 0) || decide ((i : Int) < rpt)

/-- The repeat loop shared (textually duplicated) by all five operation
functions.  `body i` yields the events of iteration i and whether the
iteration panicked; a panic aborts the whole process at once (no sleep, no
further iterations).  Otherwise the loop sleeps `interval` milliseconds
after every iteration, including the last, then re-tests the guard. -/
def repeatLoop (body : Nat → List Event × Bool) (rpt : Int) (interval : Nat) :
    Nat → Nat → List Event × Bool
  | 0, _ => ([], false)
  | fuel + 1, i =>
      if loopCond rpt i then
        if (body i).2 then ((body i).1, true)
        else
          ((body i).1 ++ Event.sleep interval
              :: (repeatLoop body rpt interval fuel (i + 1)).1,
            (repeatLoop body rpt interval fuel (i + 1)).2)
      else ([], false)

/-- One iteration of performReadOperation: the switch on the function code
issues the matching transport read; on error the error is logged; otherwise
the payload is decoded in the selected mode and the values are logged.  A
decode panic (see decodeLoop) aborts after the transport call. -/
def readBody (net : Nat → TransportResult) (fc : ReadFunc)
    (start count : Nat) (unsigned : Bool) (i : Nat) : List Event × Bool :=
  match net i with
  | .err e => ([.readCall (funcCode fc) start count, .reportError e], false)
  | .ok response =>
      if unsigned then
        match decodeUnsigned response count with
        | some vs => ([.readCall (funcCode fc) start count, .reportValuesU vs], false)
        | none => ([.readCall (funcCode fc) start count], true)
      else
        match decodeSigned response count with
        | some vs => ([.readCall (funcCode fc) start count, .reportValuesS vs], false)
        | none => ([.readCall (funcCode fc) start count], true)

/-- performReadOperation. -/
def performReadOperation (net : Nat → TransportResult) (fc : ReadFunc)
    (start count : Nat) (rpt : Int) (interval : Nat) (unsigned : Bool)
    (fuel : Nat) : List Event × Bool :=
  repeatLoop (readBody net fc start count unsigned) rpt interval fuel 0

/-- One iteration of writeSingleCoil: the raw 16-bit value is handed to the
transport unchanged. -/
def writeSingleCoilBody (wnet : Nat → WriteResult) (address value : Nat)
    (i : Nat) : List Event × Bool :=
  match wnet i with
  | .err e => ([.writeSingleCoilCall address value, .reportError e], false)
  | .ok => ([.writeSingleCoilCall address value, .reportWriteOk], false)

/-- writeSingleCoil. -/
def writeSingleCoil (wnet : Nat → WriteResult) (address value : Nat)
    (rpt : Int) (interval fuel : Nat) : List Event × Bool :=
  repeatLoop (writeSingleCoilBody wnet address value) rpt interval fuel 0

/-- One iteration of writeSingleRegister. -/
def writeSingleRegisterBody (wnet : Nat → WriteResult) (address value : Nat)
    (i : Nat) : List Event × Bool :=
  match wnet i with
  | .err e => ([.writeSingleRegisterCall address value, .reportError e], false)
  | .ok => ([.writeSingleRegisterCall address value, .reportWriteOk], false)

/-- writeSingleRegister. -/
def writeSingleRegister (wnet : Nat → WriteResult) (address value : Nat)
    (rpt : Int) (interval fuel : Nat) : List Event × Bool :=
  repeatLoop (writeSingleRegisterBody wnet address value) rpt interval fuel 0

/-- One iteration of writeMultipleCoils: the data block was built once
before the loop; the quantity sent is uint16(len(values)). -/
def writeMultipleCoilsBody (wnet : Nat → WriteResult) (start : Nat)
    (values : List Nat) (data : List Nat) (i : Nat) : List Event × Bool :=
  match wnet i with
  | .err e =>
      ([.writeMultipleCoilsCall start (values.length % 65536) data,
        .reportError e], false)
  | .ok =>
      ([.writeMultipleCoilsCall start (values.length % 65536) data,
        .reportWriteOk], false)

/-- writeMultipleCoils: builds the data block with the PutUint16 loop, then
repeats the transport call. -/
def writeMultipleCoils (wnet : Nat → WriteResult) (start : Nat)
    (values : List Nat) (rpt : Int) (interval fuel : Nat) : List Event × Bool :=
  repeatLoop (writeMultipleCoilsBody wnet start values (encodeRegisters values))
    rpt interval fuel 0

/-- One iteration of writeMultipleRegisters. -/
def writeMultipleRegistersBody (wnet : Nat → WriteResult) (start : Nat)
    (values : List Nat) (data : List Nat) (i : Nat) : List Event × Bool :=
  match wnet i with
  | .err e =>
      ([.writeMultipleRegistersCall start (values.length % 65536) data,
        .reportError e], false)
  | .ok =>
      ([.writeMultipleRegistersCall start (values.length % 65536) data,
        .reportWriteOk], false)

/-- writeMultipleRegisters: builds the data block with the PutUint16 loop,
then repeats the transport call. -/
def writeMultipleRegisters (wnet : Nat → WriteResult) (start : Nat)
    (values : List Nat) (rpt : Int) (interval fuel : Nat) : List Event × Bool :=
  repeatLoop
    (writeMultipleRegistersBody wnet start values (encodeRegisters values))
    rpt interval fuel 0

/-! ## Flag parsing (value conversion) and main dispatch -/

/-- strconv.ParseInt with base 10 and bitSize 16 (Go standard library),
applied to a well-formed decimal string with numeric value `n`: it fails
with ErrRange whenever `n` is not representable as an int16. -/
def parseInt16 (n : Int) : Except Unit Int :=
  if -32768 ≤ n ∧ n ≤ 32767 then .ok n else .error ()

/-- strconv.ParseUint with base 10 and bitSize 16, applied to a well-formed
decimal string with numeric value `n` (negative `n` models a leading minus
sign, which ParseUint rejects). -/
def parseUint16 (n : Int) : Except Unit Int :=
  if 0 ≤ n ∧ n ≤ 65535 then .ok n else .error ()

/-- The value-conversion step of parseFlags, used both for the single
--value flag and for each entry of the --values list: unsigned mode parses
with ParseUint(.., 10, 16); signed mode parses with ParseInt(.., 10, 16)
and stores uint16(value & 0xFFFF).  For an int64 the bitwise AND with
0xFFFF is reduction mod 65536 of the two's-complement representation.
`Except.error ()` models log.Fatalf, which terminates the process. -/
def parseValue (unsigned : Bool) (n : Int) : Except Unit Nat :=
  if unsigned then
    match parseUint16 n with
    | .ok v => .ok v.toNat
    | .error _ => .error ()
  else
    match parseInt16 n with
    | .ok v => .ok (v % 65536).toNat
    | .error _ => .error ()

/-- The parsed command-line arguments relevant to dispatch (ModbusArgs). -/
structure Args where
  operation : String
  start : Nat
  count : Nat
  value : Nat
  values : List Nat
  rpt : Int
  interval : Nat
  unsigned : Bool

/-- The eight operation names accepted by main's switch. -/
def supportedOperations : List String :=
  ["read_coils", "read_discrete_inputs", "read_holding_registers",
   "read_input_registers", "write_single_coil", "write_single_register",
   "write_multiple_coils", "write_multiple_registers"]

/-- main's dispatch on args.Operation.  createModbusClient runs before the
switch but performs no I/O: goburrow's NewTCPClientHandler only stores the
address and connects lazily on the first request, so no connection attempt
or transport call precedes the switch.  The default case is
log.Fatalf("Invalid operation"), modelled as `Except.error ()`: the process
exits before any loop iteration or transport event. -/
def mainRun (args : Args) (net : Nat → TransportResult)
    (wnet : Nat → WriteResult) (fuel : Nat) : Except Unit (List Event × Bool) :=
  if args.operation = "read_coils" then
    .ok (performReadOperation net .readCoils args.start args.count
      args.rpt args.interval args.unsigned fuel)
  else if args.operation = "read_discrete_inputs" then
    .ok (performReadOperation net .readDiscreteInputs args.start args.count
      args.rpt args.interval args.unsigned fuel)
  else if args.operation = "read_holding_registers" then
    .ok (performReadOperation net .readHoldingRegisters args.start args.count
      args.rpt args.interval args.unsigned fuel)
  else if args.operation = "read_input_registers" then
    .ok (performReadOperation net .readInputRegisters args.start args.count
      args.rpt args.interval args.unsigned fuel)
  else if args.operation = "write_single_coil" then
    .ok (writeSingleCoil wnet args.start args.value args.rpt args.interval fuel)
  else if args.operation = "write_single_register" then
    .ok (writeSingleRegister wnet args.start args.value args.rpt args.interval fuel)
  else if args.operation = "write_multiple_coils" then
    .ok (writeMultipleCoils wnet args.start args.values args.rpt args.interval fuel)
  else if args.operation = "write_multiple_registers" then
    .ok (writeMultipleRegisters wnet args.start args.values args.rpt args.interval fuel)
  else .error ()

/-! ## Loop lemmas -/

theorem loopCond_of_nonpos (rpt : Int) (h : rpt ≤ 0) (i : Nat) :
    loopCond rpt i = true := by
  simp [loopCond, h]

theorem loopCond_nat (N i : Nat) (hN : 0 < N) :
    loopCond (N : Int) i = decide (i < N) := by
  have h1 : ¬ ((N : Int) ≤ 0) := by exact_mod_cast Nat.not_le.mpr hN
  simp [loopCond, h1]

theorem repeatLoop_unbounded (body : Nat → List Event × Bool) (rpt : Int)
    (interval : Nat) (hrpt : rpt ≤ 0)
    (hb : ∀ j, (body j).2 = false)
    (hr : ∀ j, ((body j).1).countP isReport = 1)
    (hs : ∀ j, ((body j).1).countP isSleep = 0) :
    ∀ (fuel i : Nat),
      (repeatLoop body rpt interval fuel i).1.countP isReport = fuel
      ∧ (repeatLoop body rpt interval fuel i).1.countP isSleep = fuel
      ∧ (repeatLoop body rpt interval fuel i).2 = false := by
  intro fuel
  induction fuel with
  | zero => intro i; simp [repeatLoop]
  | succ fuel ih =>
      intro i
      obtain ⟨ih1, ih2, ih3⟩ := ih (i + 1)
      have hcond := loopCond_of_nonpos rpt hrpt i
      have hbi := hb i
      simp only [repeatLoop, hcond, if_true, hbi, Bool.false_eq_true, if_false]
      refine ⟨?_, ?_, ih3⟩
      · simp [List.countP_append, List.countP_cons, hr i, ih1, isReport]
        omega
      · simp [List.countP_append, List.countP_cons, hs i, ih2, isSleep]

theorem repeatLoop_fuel_stable (body : Nat → List Event × Bool)
    (N interval : Nat) (hN : 0 < N) :
    ∀ (fuel i : Nat), N ≤ i + fuel →
      repeatLoop body (N : Int) interval fuel i
        = repeatLoop body (N : Int) interval (N - i) i := by
  intro fuel
  induction fuel with
  | zero =>
      intro i h
      have h0 : N - i = 0 := by omega
      rw [h0]
  | succ fuel ih =>
      intro i h
      by_cases hi : i < N
      · have hcond : loopCond (N : Int) i = true := by
          rw [loopCond_nat N i hN]; simp [hi]
        have hNi : N - i = (N - (i + 1)) + 1 := by omega
        rw [hNi]
        show (if loopCond (N : Int) i then _ else _)
          = (if loopCond (N : Int) i then _ else _)
        rw [hcond]
        simp only [if_true]
        rw [ih (i + 1) (by omega)]
      · have hcond : loopCond (N : Int) i = false := by
          rw [loopCond_nat N i hN]; simp [hi]
        have h0 : N - i = 0 := by omega
        rw [h0]
        show (if loopCond (N : Int) i then _ else _) = _
        rw [hcond]
        simp [repeatLoop]

theorem repeatLoop_bounded (body : Nat → List Event × Bool)
    (N interval : Nat) (hN : 0 < N)
    (hb : ∀ j, (body j).2 = false)
    (hr : ∀ j, ((body j).1).countP isReport = 1)
    (hs : ∀ j, ((body j).1).countP isSleep = 0) :
    ∀ (fuel i : Nat), fuel = N - i →
      (repeatLoop body (N : Int) interval fuel i).1.countP isReport = fuel
      ∧ (repeatLoop body (N : Int) interval fuel i).1.countP isSleep = fuel
      ∧ (repeatLoop body (N : Int) interval fuel i).2 = false := by
  intro fuel
  induction fuel with
  | zero => intro i _; simp [repeatLoop]
  | succ fuel ih =>
      intro i hfi
      have hi : i < N := by omega
      obtain ⟨ih1, ih2, ih3⟩ := ih (i + 1) (by omega)
      have hcond : loopCond (N : Int) i = true := by
        rw [loopCond_nat N i hN]; simp [hi]
      have hbi := hb i
      simp only [repeatLoop, hcond, if_true, hbi, Bool.false_eq_true, if_false]
      refine ⟨?_, ?_, ih3⟩
      · simp [List.countP_append, List.countP_cons, hr i, ih1, isReport]
        omega
      · simp [List.countP_append, List.countP_cons, hs i, ih2, isSleep]

/-! ## Per-body lemmas -/

theorem readBody_spec (net : Nat → TransportResult) (fc : ReadFunc)
    (start count : Nat) (u : Bool) (j : Nat)
    (hconf : ∀ resp, net j = .ok resp →
      resp.length % 2 = 0 ∧ resp.length ≤ 2 * count) :
    (readBody net fc start count u j).2 = false
    ∧ (readBody net fc start count u j).1.countP isReport = 1
    ∧ (readBody net fc start count u j).1.countP isSleep = 0 := by
  cases h : net j with
  | err e => simp [readBody, h, isReport, isSleep]
  | ok resp =>
      obtain ⟨he, hle⟩ := hconf resp h
      cases u with
      | true =>
          simp [readBody, h, decodeUnsigned_eq resp count he hle,
            isReport, isSleep]
      | false =>
          simp [readBody, h, decodeSigned_eq resp count he hle,
            isReport, isSleep]

theorem writeSingleCoilBody_spec (wnet : Nat → WriteResult)
    (address value j : Nat) :
    (writeSingleCoilBody wnet address value j).2 = false
    ∧ (writeSingleCoilBody wnet address value j).1.countP isReport = 1
    ∧ (writeSingleCoilBody wnet address value j).1.countP isSleep = 0 := by
  cases h : wnet j <;> simp [writeSingleCoilBody, h, isReport, isSleep]

theorem writeSingleRegisterBody_spec (wnet : Nat → WriteResult)
    (address value j : Nat) :
    (writeSingleRegisterBody wnet address value j).2 = false
    ∧ (writeSingleRegisterBody wnet address value j).1.countP isReport = 1
    ∧ (writeSingleRegisterBody wnet address value j).1.countP isSleep = 0 := by
  cases h : wnet j <;> simp [writeSingleRegisterBody, h, isReport, isSleep]

theorem writeMultipleCoilsBody_spec (wnet : Nat → WriteResult)
    (start : Nat) (values data : List Nat) (j : Nat) :
    (writeMultipleCoilsBody wnet start values data j).2 = false
    ∧ (writeMultipleCoilsBody wnet start values data j).1.countP isReport = 1
    ∧ (writeMultipleCoilsBody wnet start values data j).1.countP isSleep = 0 := by
  cases h : wnet j <;> simp [writeMultipleCoilsBody, h, isReport, isSleep]

theorem writeMultipleRegistersBody_spec (wnet : Nat → WriteResult)
    (start : Nat) (values data : List Nat) (j : Nat) :
    (writeMultipleRegistersBody wnet start values data j).2 = false
    ∧ (writeMultipleRegistersBody wnet start values data j).1.countP isReport = 1
    ∧ (writeMultipleRegistersBody wnet start values data j).1.countP isSleep = 0 := by
  cases h : wnet j <;> simp [writeMultipleRegistersBody, h, isReport, isSleep]

/-! ## Claim C1: decode length and encode round-trip -/

/-- C1 counterexample: the decode step does not produce len(P)/2 values for
every even-length payload P — the output buffer is allocated with the
requested count.  With count 2 and the 2-byte payload 0x00 0x01, decoding
yields the 2 values 1 and 0, not len(P)/2 = 1 value. -/
theorem c1_counterexample :
    decodeUnsigned [0, 1] 2 = some [1, 0]
    ∧ ([1, 0] : List Nat).length ≠ ([0, 1] : List Nat).length / 2 := by
  decide

/-- C1 (amended): when the decode step is invoked with the count matching
the payload (count = len(P)/2, the case of a conformant read response), it
produces exactly len(P)/2 values in both modes, and encoding the unsigned
decoding — as done when building a multi-register write payload —
reproduces P byte for byte. -/
theorem c1_roundtrip (P : List Nat) (heven : P.length % 2 = 0)
    (hbytes : ∀ b ∈ P, b < 256) :
    decodeUnsigned P (P.length / 2) = some (wordsOf P)
    ∧ (wordsOf P).length = P.length / 2
    ∧ decodeSigned P (P.length / 2) = some ((wordsOf P).map toInt16)
    ∧ ((wordsOf P).map toInt16).length = P.length / 2
    ∧ encodeRegisters (wordsOf P) = P := by
  have hw := wordsOf_length P heven
  have hle : P.length ≤ 2 * (P.length / 2) := by omega
  refine ⟨?_, hw, ?_, by simp [hw], encode_wordsOf P heven hbytes⟩
  · rw [decodeUnsigned_eq P _ heven hle]
    simp [hw]
  · rw [decodeSigned_eq P _ heven hle]
    simp [hw]

/-- C1 witness at the concrete payload 0x00 0x0A 0xFF 0xFF. -/
theorem c1_witness :
    decodeUnsigned [0, 10, 255, 255] 2 = some [10, 65535]
    ∧ encodeRegisters [10, 65535] = [0, 10, 255, 255] := by
  have h := c1_roundtrip [0, 10, 255, 255] (by decide) (by decide)
  exact ⟨h.1, h.2.2.2.2⟩

/-! ## Claim C4: 16-bit word interpretation -/

/-- C4: for every big-endian word of two bytes, the unsigned decoding
returns the word value, which lies in 0..65535, and the signed decoding
returns its two's-complement reinterpretation: negative exactly when the
word is at least 0x8000, equal to the unsigned value otherwise, and equal
to the unsigned value minus 65536 in the negative case; the example payload
0x00 0x0A 0xFF 0xFF decodes in unsigned mode with count 2 to 10, 65535. -/
theorem c4_word_interpretation (hi lo : Nat) (h1 : hi < 256) (h2 : lo < 256) :
    decodeUnsigned [hi, lo] 1 = some [bigEndianUint16 hi lo]
    ∧ bigEndianUint16 hi lo ≤ 65535
    ∧ decodeSigned [hi, lo] 1 = some [toInt16 (bigEndianUint16 hi lo)]
    ∧ (toInt16 (bigEndianUint16 hi lo) < 0 ↔ 32768 ≤ bigEndianUint16 hi lo)
    ∧ (bigEndianUint16 hi lo < 32768 →
        toInt16 (bigEndianUint16 hi lo) = (bigEndianUint16 hi lo : Int))
    ∧ (32768 ≤ bigEndianUint16 hi lo →
        toInt16 (bigEndianUint16 hi lo) = (bigEndianUint16 hi lo : Int) - 65536)
    ∧ decodeUnsigned [0, 10, 255, 255] 2 = some [10, 65535] := by
  have hb : bigEndianUint16 hi lo ≤ 65535 := by unfold bigEndianUint16; omega
  refine ⟨?_, hb, ?_, ?_, ?_, ?_, by decide⟩
  · rw [decodeUnsigned_eq [hi, lo] 1 (by simp) (by simp)]
    simp [wordsOf]
  · rw [decodeSigned_eq [hi, lo] 1 (by simp) (by simp)]
    simp [wordsOf]
  · constructor
    · intro hneg
      by_contra hlt
      push_neg at hlt
      rw [toInt16, if_pos hlt] at hneg
      omega
    · intro hge
      rw [toInt16, if_neg (by omega)]
      omega
  · intro hlt
    rw [toInt16, if_pos hlt]
  · intro hge
    rw [toInt16, if_neg (by omega)]

/-- C4 witness at the word 0xFFFF. -/
theorem c4_witness :
    decodeUnsigned [255, 255] 1 = some [bigEndianUint16 255 255]
    ∧ (toInt16 (bigEndianUint16 255 255) < 0 ↔ 32768 ≤ bigEndianUint16 255 255) := by
  have h := c4_word_interpretation 255 255 (by decide) (by decide)
  exact ⟨h.1, h.2.2.2.1⟩

/-! ## Claim C5: decode failure modes -/

/-- C5 counterexample: the claim fails in both directions.  Decoding can
fail on an even-length payload (4 bytes with count 1), and an odd-length
payload is not surfaced as a reported transport-class error for the
iteration: the run aborts with a runtime panic (index out of range) and no
outcome is reported at all. -/
theorem c5_counterexample :
    decodeUnsigned [0, 0, 0, 0] 1 = none
    ∧ (performReadOperation (fun _ => TransportResult.ok [0])
        ReadFunc.readHoldingRegisters 0 1 2 0 true 2).2 = true
    ∧ (performReadOperation (fun _ => TransportResult.ok [0])
        ReadFunc.readHoldingRegisters 0 1 2 0 true 2).1.countP isReport = 0 := by
  decide

/-- C5 (amended): the decode step aborts — modelling a Go index
out-of-range panic that terminates the whole process, not a reported
per-iteration error — exactly when the payload length is odd or exceeds
twice the requested count; for every even-length payload of length at most
twice the count it succeeds.  There is no defensive odd-length check: when
a response payload makes the decode abort, the repeat loop is torn down
mid-iteration. -/
theorem c5_decode_failure (resp : List Nat) (count : Nat) :
    (decodeUnsigned resp count = none
      ↔ resp.length % 2 = 1 ∨ 2 * count < resp.length)
    ∧ (decodeSigned resp count = none
      ↔ resp.length % 2 = 1 ∨ 2 * count < resp.length)
    ∧ (∀ (net : Nat → TransportResult) (fc : ReadFunc) (start : Nat)
        (u : Bool) (rpt : Int) (interval fuel i : Nat) (r : List Nat),
        loopCond rpt i = true → net i = TransportResult.ok r →
        decodeUnsigned r count = none →
        (repeatLoop (readBody net fc start count u) rpt interval
          (fuel + 1) i).2 = true) := by
  refine ⟨decodeUnsigned_none_iff resp count,
    decodeSigned_none_iff resp count, ?_⟩
  intro net fc start u rpt interval fuel i r hcond hnet hdec
  have hdecS : decodeSigned r count = none := by
    rw [decodeSigned_none_iff]
    exact (decodeUnsigned_none_iff r count).mp hdec
  cases u with
  | true => simp [repeatLoop, hcond, readBody, hnet, hdec]
  | false => simp [repeatLoop, hcond, readBody, hnet, hdecS]

/-- C5 witness: a 1-byte payload with count 1 aborts the run. -/
theorem c5_witness :
    decodeUnsigned [0] 1 = none
    ∧ (repeatLoop (readBody (fun _ => TransportResult.ok [0])
        ReadFunc.readCoils 0 1 true) 1 0 1 0).2 = true := by
  have h := c5_decode_failure [0] 1
  refine ⟨(h.1).mpr (by decide), ?_⟩
  exact h.2.2 (fun _ => TransportResult.ok [0]) ReadFunc.readCoils 0 true 1 0 0 0
    [0] (by decide) rfl (by decide)

/-! ## Claim C10: buffer allocated with count -/

/-- C10 counterexample: a payload shorter than twice the count does not
always yield count values — a 1-byte payload with count 1 is shorter than
2 but decoding aborts with an out-of-range slice access instead of
producing one value. -/
theorem c10_counterexample :
    decodeUnsigned [0] 1 = none ∧ ([0] : List Nat).length < 2 * 1 := by
  decide

/-- C10 (amended): the decode buffer is allocated with the requested count,
so every successful decode yields exactly count values; a payload longer
than twice the count always causes an out-of-range access (abort); an
even-length payload no longer than twice the count succeeds with count
values, the packed words first and the missing tail reported as zeros. -/
theorem c10_buffer_count (resp : List Nat) (count : Nat) :
    (∀ out, decodeUnsigned resp count = some out → out.length = count)
    ∧ (2 * count < resp.length → decodeUnsigned resp count = none)
    ∧ (resp.length % 2 = 0 → resp.length ≤ 2 * count →
        decodeUnsigned resp count
          = some (wordsOf resp ++ List.replicate (count - resp.length / 2) 0)) := by
  refine ⟨?_, ?_, fun he hl => decodeUnsigned_eq resp count he hl⟩
  · intro out hout
    by_cases he : resp.length % 2 = 0
    · by_cases hl : resp.length ≤ 2 * count
      · rw [decodeUnsigned_eq resp count he hl] at hout
        have hout2 := Option.some.inj hout
        subst hout2
        simp [wordsOf_length resp he]
        omega
      · rw [(decodeUnsigned_none_iff resp count).mpr (Or.inr (by omega))] at hout
        cases hout
    · rw [(decodeUnsigned_none_iff resp count).mpr (Or.inl (by omega))] at hout
      cases hout
  · intro hl
    exact (decodeUnsigned_none_iff resp count).mpr (Or.inr hl)

/-- C10 witness: a 2-byte payload with count 3 yields 3 values, zero tail. -/
theorem c10_witness :
    decodeUnsigned [0, 10] 3 = some [10, 0, 0] := by
  have h := (c10_buffer_count [0, 10] 3).2.2 (by decide) (by decide)
  simpa [wordsOf, bigEndianUint16] using h

/-! ## Parse helpers -/

theorem parseValue_signed_err (n : Int) (h : n < -32768 ∨ 32767 < n) :
    parseValue false n = Except.error () := by
  have hc : ¬(-32768 ≤ n ∧ n ≤ 32767) := by omega
  simp [parseValue, parseInt16, hc]

theorem parseValue_signed_ok (n : Int) (h1 : -32768 ≤ n) (h2 : n ≤ 32767) :
    parseValue false n = Except.ok ((n % 65536).toNat) := by
  have hc : -32768 ≤ n ∧ n ≤ 32767 := ⟨h1, h2⟩
  simp [parseValue, parseInt16, hc]

theorem parseValue_signed_neg (n : Int) (h1 : -32768 ≤ n) (h2 : n < 0) :
    parseValue false n = Except.ok ((n + 65536).toNat) := by
  have hm : n % 65536 = n + 65536 := by omega
  rw [parseValue_signed_ok n h1 (by omega), hm]

/-! ## Claim C7: out-of-range signed input -/

/-- C7 counterexample: a signed input value outside -32768..32767 is not
wrapped to 16 bits — ParseInt with bitSize 16 returns a range error and the
program exits via log.Fatalf.  Wrapping would have produced the values
40000 and 25536 here. -/
theorem c7_counterexample :
    parseValue false 40000 = Except.error ()
    ∧ parseValue false (-40000) = Except.error () := by
  constructor <;> rfl

/-- C7 (amended): a signed input value outside -32768..32767 is rejected at
parse time with a fatal error (no wrapping takes place); a value inside the
range is accepted and stored as uint16(value & 0xFFFF), which maps an
in-range negative value to its two's-complement 16-bit bit pattern. -/
theorem c7_range_rejected (n : Int) :
    ((n < -32768 ∨ 32767 < n) → parseValue false n = Except.error ())
    ∧ (-32768 ≤ n → n ≤ 32767 →
        parseValue false n = Except.ok ((n % 65536).toNat))
    ∧ (-32768 ≤ n → n < 0 →
        parseValue false n = Except.ok ((n + 65536).toNat)) :=
  ⟨parseValue_signed_err n, parseValue_signed_ok n, parseValue_signed_neg n⟩

/-- C7 witness: 40000 is rejected; -1 maps to 65535. -/
theorem c7_witness :
    parseValue false 40000 = Except.error ()
    ∧ parseValue false (-1) = Except.ok 65535 := by
  refine ⟨(c7_range_rejected 40000).1 (by omega), ?_⟩
  have h := (c7_range_rejected (-1)).2.2 (by omega) (by omega)
  simpa using h

/-! ## Encode lemmas -/

theorem encodeRegisters_length (values : List Nat) :
    (encodeRegisters values).length = 2 * values.length := by
  induction values with
  | nil => rfl
  | cons v vs ih =>
      simp [encodeRegisters, putUint16, ih]
      omega

theorem encodeRegisters_bytes (values : List Nat)
    (hv : ∀ v ∈ values, v < 65536) :
    ∀ b ∈ encodeRegisters values, b < 256 := by
  induction values with
  | nil => intro b hb; simp [encodeRegisters] at hb
  | cons v vs ih =>
      intro b hb
      simp [encodeRegisters, putUint16] at hb
      rcases hb with h | h | h
      · subst h
        have := hv v (by simp)
        omega
      · subst h
        omega
      · exact ih (fun w hw => hv w (by simp [hw])) b h

theorem encodeRegisters_get (values : List Nat) :
    ∀ k, k < values.length →
      (encodeRegisters values).get? (2 * k) = some (values.getD k 0 / 256)
      ∧ (encodeRegisters values).get? (2 * k + 1)
          = some (values.getD k 0 % 256) := by
  induction values with
  | nil => intro k hk; simp at hk
  | cons v vs ih =>
      intro k hk
      cases k with
      | zero => simp [encodeRegisters, putUint16]
      | succ k =>
          obtain ⟨ih1, ih2⟩ := ih k (by simp at hk; omega)
          constructor
          · show (v / 256 :: v % 256 :: encodeRegisters vs).get? (2 * (k + 1))
              = some ((v :: vs).getD (k + 1) 0 / 256)
            have h2 : 2 * (k + 1) = 2 * k + 1 + 1 := by omega
            rw [h2, List.get?_cons_succ, List.get?_cons_succ, ih1,
              List.getD_cons_succ]
          · show (v / 256 :: v % 256 :: encodeRegisters vs).get? (2 * (k + 1) + 1)
              = some ((v :: vs).getD (k + 1) 0 % 256)
            have h3 : 2 * (k + 1) + 1 = 2 * k + 1 + 1 + 1 := by omega
            rw [h3, List.get?_cons_succ, List.get?_cons_succ, ih2,
              List.getD_cons_succ]

/-! ## Claim C8: big-endian encode in input order -/

/-- C8: encoding emits exactly two bytes per value, the big-endian pair of
each 16-bit value in input order; in-range signed negatives entered on the
command line are mapped to their two's-complement pattern at parse time;
the signed values 1, -1 parse to the uint16 values 1, 65535, which encode
to the data bytes 0x00 0x01 0xFF 0xFF, and writeMultipleRegisters sends
exactly that data block on the wire. -/
theorem c8_encode_bigendian (values : List Nat)
    (hv : ∀ v ∈ values, v < 65536) :
    (encodeRegisters values).length = 2 * values.length
    ∧ (∀ b ∈ encodeRegisters values, b < 256)
    ∧ (∀ k, k < values.length →
        (encodeRegisters values).get? (2 * k) = some (values.getD k 0 / 256)
        ∧ (encodeRegisters values).get? (2 * k + 1)
            = some (values.getD k 0 % 256))
    ∧ (∀ n : Int, -32768 ≤ n → n < 0 →
        parseValue false n = Except.ok ((n + 65536).toNat))
    ∧ parseValue false 1 = Except.ok 1
    ∧ parseValue false (-1) = Except.ok 65535
    ∧ encodeRegisters [1, 65535] = [0, 1, 255, 255]
    ∧ (writeMultipleRegisters (fun _ => WriteResult.ok) 0 [1, 65535] 1 0 1).1
        = [Event.writeMultipleRegistersCall 0 2 [0, 1, 255, 255],
           Event.reportWriteOk, Event.sleep 0] :=
  ⟨encodeRegisters_length values, encodeRegisters_bytes values hv,
    encodeRegisters_get values, fun n h1 h2 => parseValue_signed_neg n h1 h2,
    rfl, rfl, rfl, by decide⟩

/-- C8 witness at the example value list 1, 65535 (parsed from 1, -1). -/
theorem c8_witness :
    (encodeRegisters [1, 65535]).length = 2 * 2
    ∧ encodeRegisters [1, 65535] = [0, 1, 255, 255] := by
  have h := c8_encode_bigendian [1, 65535] (by decide)
  exact ⟨h.1, h.2.2.2.2.2.2.1⟩

/-! ## Claim C2: repeat count semantics -/

/-- C2: for every operation kind, a repeat count of zero or less makes the
loop guard hold forever, so the loop runs until externally canceled (it
performs one reported iteration per unit of cancellation budget and never
terminates on its own); a repeat count N greater than zero yields exactly N
iterations with N reported outcomes — any extra budget leaves the run
unchanged, the guard fails at iteration N, and the run ends without abort.
For the read operations this assumes every response payload is decodable
(even length, at most twice the count), since a malformed payload aborts
the process (see C5/C10). -/
theorem c2_repeat_semantics (net : Nat → TransportResult)
    (wnet : Nat → WriteResult) (fc : ReadFunc) (start count : Nat) (u : Bool)
    (address value : Nat) (values : List Nat) (interval : Nat)
    (hconf : ∀ j resp, net j = TransportResult.ok resp →
      resp.length % 2 = 0 ∧ resp.length ≤ 2 * count) :
    (∀ rpt : Int, rpt ≤ 0 → ∀ i, loopCond rpt i = true)
    ∧ (∀ rpt : Int, rpt ≤ 0 → ∀ fuel,
        (performReadOperation net fc start count rpt interval u fuel).1.countP
            isReport = fuel
        ∧ (performReadOperation net fc start count rpt interval u fuel).2 = false
        ∧ (writeSingleCoil wnet address value rpt interval fuel).1.countP
            isReport = fuel
        ∧ (writeSingleRegister wnet address value rpt interval fuel).1.countP
            isReport = fuel
        ∧ (writeMultipleCoils wnet start values rpt interval fuel).1.countP
            isReport = fuel
        ∧ (writeMultipleRegisters wnet start values rpt interval fuel).1.countP
            isReport = fuel)
    ∧ (∀ N : Nat, 0 < N →
        loopCond (N : Int) N = false
        ∧ ∀ m,
          performReadOperation net fc start count (N : Int) interval u (N + m)
            = performReadOperation net fc start count (N : Int) interval u N
          ∧ (performReadOperation net fc start count (N : Int) interval u
              N).1.countP isReport = N
          ∧ (performReadOperation net fc start count (N : Int) interval u
              N).1.countP isSleep = N
          ∧ (performReadOperation net fc start count (N : Int) interval u
              N).2 = false
          ∧ writeSingleCoil wnet address value (N : Int) interval (N + m)
            = writeSingleCoil wnet address value (N : Int) interval N
          ∧ (writeSingleCoil wnet address value (N : Int) interval
              N).1.countP isReport = N
          ∧ writeSingleRegister wnet address value (N : Int) interval (N + m)
            = writeSingleRegister wnet address value (N : Int) interval N
          ∧ (writeSingleRegister wnet address value (N : Int) interval
              N).1.countP isReport = N
          ∧ writeMultipleCoils wnet start values (N : Int) interval (N + m)
            = writeMultipleCoils wnet start values (N : Int) interval N
          ∧ (writeMultipleCoils wnet start values (N : Int) interval
              N).1.countP isReport = N
          ∧ writeMultipleRegisters wnet start values (N : Int) interval (N + m)
            = writeMultipleRegisters wnet start values (N : Int) interval N
          ∧ (writeMultipleRegisters wnet start values (N : Int) interval
              N).1.countP isReport = N) := by
  have hrb := fun j => readBody_spec net fc start count u j (hconf j)
  have hwc := writeSingleCoilBody_spec wnet address value
  have hwr := writeSingleRegisterBody_spec wnet address value
  have hmc := writeMultipleCoilsBody_spec wnet start values
    (encodeRegisters values)
  have hmr := writeMultipleRegistersBody_spec wnet start values
    (encodeRegisters values)
  refine ⟨fun rpt h i => loopCond_of_nonpos rpt h i, ?_, ?_⟩
  · intro rpt h fuel
    have u1 := repeatLoop_unbounded (readBody net fc start count u) rpt
      interval h (fun j => (hrb j).1) (fun j => (hrb j).2.1)
      (fun j => (hrb j).2.2) fuel 0
    have u2 := repeatLoop_unbounded (writeSingleCoilBody wnet address value)
      rpt interval h (fun j => (hwc j).1) (fun j => (hwc j).2.1)
      (fun j => (hwc j).2.2) fuel 0
    have u3 := repeatLoop_unbounded (writeSingleRegisterBody wnet address value)
      rpt interval h (fun j => (hwr j).1) (fun j => (hwr j).2.1)
      (fun j => (hwr j).2.2) fuel 0
    have u4 := repeatLoop_unbounded
      (writeMultipleCoilsBody wnet start values (encodeRegisters values))
      rpt interval h (fun j => (hmc j).1) (fun j => (hmc j).2.1)
      (fun j => (hmc j).2.2) fuel 0
    have u5 := repeatLoop_unbounded
      (writeMultipleRegistersBody wnet start values (encodeRegisters values))
      rpt interval h (fun j => (hmr j).1) (fun j => (hmr j).2.1)
      (fun j => (hmr j).2.2) fuel 0
    exact ⟨u1.1, u1.2.2, u2.1, u3.1, u4.1, u5.1⟩
  · intro N hN
    have hcond : loopCond (N : Int) N = false := by
      rw [loopCond_nat N N hN]
      simp
    refine ⟨hcond, fun m => ?_⟩
    have b1 := repeatLoop_bounded (readBody net fc start count u) N interval
      hN (fun j => (hrb j).1) (fun j => (hrb j).2.1) (fun j => (hrb j).2.2)
      N 0 (by omega)
    have b2 := repeatLoop_bounded (writeSingleCoilBody wnet address value) N
      interval hN (fun j => (hwc j).1) (fun j => (hwc j).2.1)
      (fun j => (hwc j).2.2) N 0 (by omega)
    have b3 := repeatLoop_bounded (writeSingleRegisterBody wnet address value)
      N interval hN (fun j => (hwr j).1) (fun j => (hwr j).2.1)
      (fun j => (hwr j).2.2) N 0 (by omega)
    have b4 := repeatLoop_bounded
      (writeMultipleCoilsBody wnet start values (encodeRegisters values)) N
      interval hN (fun j => (hmc j).1) (fun j => (hmc j).2.1)
      (fun j => (hmc j).2.2) N 0 (by omega)
    have b5 := repeatLoop_bounded
      (writeMultipleRegistersBody wnet start values (encodeRegisters values))
      N interval hN (fun j => (hmr j).1) (fun j => (hmr j).2.1)
      (fun j => (hmr j).2.2) N 0 (by omega)
    have s1 := repeatLoop_fuel_stable (readBody net fc start count u) N
      interval hN (N + m) 0 (by omega)
    have s2 := repeatLoop_fuel_stable (writeSingleCoilBody wnet address value)
      N interval hN (N + m) 0 (by omega)
    have s3 := repeatLoop_fuel_stable
      (writeSingleRegisterBody wnet address value) N interval hN (N + m) 0
      (by omega)
    have s4 := repeatLoop_fuel_stable
      (writeMultipleCoilsBody wnet start values (encodeRegisters values)) N
      interval hN (N + m) 0 (by omega)
    have s5 := repeatLoop_fuel_stable
      (writeMultipleRegistersBody wnet start values (encodeRegisters values))
      N interval hN (N + m) 0 (by omega)
    rw [Nat.sub_zero] at s1 s2 s3 s4 s5
    exact ⟨s1, b1.1, b1.2.1, b1.2.2, s2, b2.1, s3, b3.1, s4, b4.1, s5, b5.1⟩

/-- C2 witness: three repeats with an erroring transport give three
reported outcomes and a false guard at iteration 3. -/
theorem c2_witness :
    (performReadOperation (fun _ => TransportResult.err 0) ReadFunc.readCoils
        0 1 ((3 : Nat) : Int) 0 true (3 + 2)).1.countP isReport = 3
    ∧ loopCond ((3 : Nat) : Int) 3 = false := by
  have h := c2_repeat_semantics (fun _ => TransportResult.err 0)
    (fun _ => WriteResult.ok) ReadFunc.readCoils 0 1 true 0 0 [] 0
    (by intro j resp hr; simp at hr)
  obtain ⟨hb1, hball⟩ := h.2.2 3 (by omega)
  refine ⟨?_, hb1⟩
  rw [(hball 2).1]
  exact (hball 2).2.1

/-! ## Claim C3: transport errors do not stop the loop -/

theorem repeatLoop_head (body : Nat → List Event × Bool) (rpt : Int)
    (interval fuel i : Nat) (hc : loopCond rpt i = true) :
    ∃ s, (repeatLoop body rpt interval (fuel + 1) i).1 = (body i).1 ++ s := by
  by_cases hb : (body i).2 = true
  · exact ⟨[], by simp [repeatLoop, hc, hb]⟩
  · rw [Bool.not_eq_true] at hb
    exact ⟨Event.sleep interval
      :: (repeatLoop body rpt interval fuel (i + 1)).1,
      by simp [repeatLoop, hc, hb]⟩

theorem readBody_head (net : Nat → TransportResult) (fc : ReadFunc)
    (start count : Nat) (u : Bool) (j : Nat) :
    ∃ t, (readBody net fc start count u j).1
      = Event.readCall (funcCode fc) start count :: t := by
  cases h : net j with
  | err e => exact ⟨[Event.reportError e], by simp [readBody, h]⟩
  | ok resp =>
      cases u with
      | true =>
          cases hd : decodeUnsigned resp count with
          | none => exact ⟨[], by simp [readBody, h, hd]⟩
          | some vs => exact ⟨[Event.reportValuesU vs], by simp [readBody, h, hd]⟩
      | false =>
          cases hd : decodeSigned resp count with
          | none => exact ⟨[], by simp [readBody, h, hd]⟩
          | some vs => exact ⟨[Event.reportValuesS vs], by simp [readBody, h, hd]⟩

theorem writeSingleCoilBody_head (wnet : Nat → WriteResult)
    (address value j : Nat) :
    ∃ t, (writeSingleCoilBody wnet address value j).1
      = Event.writeSingleCoilCall address value :: t := by
  cases h : wnet j with
  | err e => exact ⟨[Event.reportError e], by simp [writeSingleCoilBody, h]⟩
  | ok => exact ⟨[Event.reportWriteOk], by simp [writeSingleCoilBody, h]⟩

theorem writeSingleRegisterBody_head (wnet : Nat → WriteResult)
    (address value j : Nat) :
    ∃ t, (writeSingleRegisterBody wnet address value j).1
      = Event.writeSingleRegisterCall address value :: t := by
  cases h : wnet j with
  | err e => exact ⟨[Event.reportError e], by simp [writeSingleRegisterBody, h]⟩
  | ok => exact ⟨[Event.reportWriteOk], by simp [writeSingleRegisterBody, h]⟩

theorem writeMultipleCoilsBody_head (wnet : Nat → WriteResult) (start : Nat)
    (values data : List Nat) (j : Nat) :
    ∃ t, (writeMultipleCoilsBody wnet start values data j).1
      = Event.writeMultipleCoilsCall start (values.length % 65536) data :: t := by
  cases h : wnet j with
  | err e => exact ⟨[Event.reportError e], by simp [writeMultipleCoilsBody, h]⟩
  | ok => exact ⟨[Event.reportWriteOk], by simp [writeMultipleCoilsBody, h]⟩

theorem writeMultipleRegistersBody_head (wnet : Nat → WriteResult)
    (start : Nat) (values data : List Nat) (j : Nat) :
    ∃ t, (writeMultipleRegistersBody wnet start values data j).1
      = Event.writeMultipleRegistersCall start (values.length % 65536) data
          :: t := by
  cases h : wnet j with
  | err e => exact ⟨[Event.reportError e], by simp [writeMultipleRegistersBody, h]⟩
  | ok => exact ⟨[Event.reportWriteOk], by simp [writeMultipleRegistersBody, h]⟩

/-- C3: for every operation kind, a transport error on iteration k is
reported as that iteration's outcome and the loop then sleeps the
configured interval and executes iteration k+1, whose transport call
appears next in the trace; a run whose iterations all fail with transport
errors never aborts.  The statement is about the loop from iteration k on
(the body functions are exactly those the operation runners pass to
repeatLoop); the guard hypotheses say the repeat budget allows iterations k
and k+1. -/
theorem c3_error_continues (net : Nat → TransportResult)
    (wnet : Nat → WriteResult) (fc : ReadFunc) (start count : Nat) (u : Bool)
    (address value : Nat) (values : List Nat) (k e : Nat) (rpt : Int)
    (interval fuel : Nat) (hc1 : loopCond rpt k = true)
    (hc2 : loopCond rpt (k + 1) = true) :
    (net k = TransportResult.err e →
      ∃ t, (repeatLoop (readBody net fc start count u) rpt interval
          (fuel + 2) k).1
        = Event.readCall (funcCode fc) start count :: Event.reportError e
          :: Event.sleep interval
          :: Event.readCall (funcCode fc) start count :: t)
    ∧ (wnet k = WriteResult.err e →
      ∃ t, (repeatLoop (writeSingleCoilBody wnet address value) rpt interval
          (fuel + 2) k).1
        = Event.writeSingleCoilCall address value :: Event.reportError e
          :: Event.sleep interval
          :: Event.writeSingleCoilCall address value :: t)
    ∧ (wnet k = WriteResult.err e →
      ∃ t, (repeatLoop (writeSingleRegisterBody wnet address value) rpt
          interval (fuel + 2) k).1
        = Event.writeSingleRegisterCall address value :: Event.reportError e
          :: Event.sleep interval
          :: Event.writeSingleRegisterCall address value :: t)
    ∧ (wnet k = WriteResult.err e →
      ∃ t, (repeatLoop (writeMultipleCoilsBody wnet start values
            (encodeRegisters values)) rpt interval (fuel + 2) k).1
        = Event.writeMultipleCoilsCall start (values.length % 65536)
            (encodeRegisters values) :: Event.reportError e
          :: Event.sleep interval
          :: Event.writeMultipleCoilsCall start (values.length % 65536)
            (encodeRegisters values) :: t)
    ∧ (wnet k = WriteResult.err e →
      ∃ t, (repeatLoop (writeMultipleRegistersBody wnet start values
            (encodeRegisters values)) rpt interval (fuel + 2) k).1
        = Event.writeMultipleRegistersCall start (values.length % 65536)
            (encodeRegisters values) :: Event.reportError e
          :: Event.sleep interval
          :: Event.writeMultipleRegistersCall start (values.length % 65536)
            (encodeRegisters values) :: t)
    ∧ ((∀ j, ∃ e2, net j = TransportResult.err e2) →
        ∀ f i, (repeatLoop (readBody net fc start count u) rpt interval
          f i).2 = false) := by
  refine ⟨?_, ?_, ?_, ?_, ?_, ?_⟩
  · intro hk
    have hbk : readBody net fc start count u k
        = ([Event.readCall (funcCode fc) start count, Event.reportError e],
           false) := by
      simp [readBody, hk]
    have h1 : (repeatLoop (readBody net fc start count u) rpt interval
        (fuel + 2) k).1
      = [Event.readCall (funcCode fc) start count, Event.reportError e]
        ++ Event.sleep interval
        :: (repeatLoop (readBody net fc start count u) rpt interval
            (fuel + 1) (k + 1)).1 := by
      simp [repeatLoop, hc1, hbk]
    obtain ⟨s, hs⟩ := repeatLoop_head (readBody net fc start count u) rpt
      interval fuel (k + 1) hc2
    obtain ⟨t2, ht2⟩ := readBody_head net fc start count u (k + 1)
    refine ⟨t2 ++ s, ?_⟩
    rw [h1, hs, ht2]
    simp
  · intro hk
    have hbk : writeSingleCoilBody wnet address value k
        = ([Event.writeSingleCoilCall address value, Event.reportError e],
           false) := by
      simp [writeSingleCoilBody, hk]
    have h1 : (repeatLoop (writeSingleCoilBody wnet address value) rpt
        interval (fuel + 2) k).1
      = [Event.writeSingleCoilCall address value, Event.reportError e]
        ++ Event.sleep interval
        :: (repeatLoop (writeSingleCoilBody wnet address value) rpt interval
            (fuel + 1) (k + 1)).1 := by
      simp [repeatLoop, hc1, hbk]
    obtain ⟨s, hs⟩ := repeatLoop_head (writeSingleCoilBody wnet address value)
      rpt interval fuel (k + 1) hc2
    obtain ⟨t2, ht2⟩ := writeSingleCoilBody_head wnet address value (k + 1)
    refine ⟨t2 ++ s, ?_⟩
    rw [h1, hs, ht2]
    simp
  · intro hk
    have hbk : writeSingleRegisterBody wnet address value k
        = ([Event.writeSingleRegisterCall address value, Event.reportError e],
           false) := by
      simp [writeSingleRegisterBody, hk]
    have h1 : (repeatLoop (writeSingleRegisterBody wnet address value) rpt
        interval (fuel + 2) k).1
      = [Event.writeSingleRegisterCall address value, Event.reportError e]
        ++ Event.sleep interval
        :: (repeatLoop (writeSingleRegisterBody wnet address value) rpt
            interval (fuel + 1) (k + 1)).1 := by
      simp [repeatLoop, hc1, hbk]
    obtain ⟨s, hs⟩ := repeatLoop_head
      (writeSingleRegisterBody wnet address value) rpt interval fuel (k + 1)
      hc2
    obtain ⟨t2, ht2⟩ := writeSingleRegisterBody_head wnet address value (k + 1)
    refine ⟨t2 ++ s, ?_⟩
    rw [h1, hs, ht2]
    simp
  · intro hk
    have hbk : writeMultipleCoilsBody wnet start values
        (encodeRegisters values) k
        = ([Event.writeMultipleCoilsCall start (values.length % 65536)
              (encodeRegisters values), Event.reportError e], false) := by
      simp [writeMultipleCoilsBody, hk]
    have h1 : (repeatLoop (writeMultipleCoilsBody wnet start values
          (encodeRegisters values)) rpt interval (fuel + 2) k).1
      = [Event.writeMultipleCoilsCall start (values.length % 65536)
           (encodeRegisters values), Event.reportError e]
        ++ Event.sleep interval
        :: (repeatLoop (writeMultipleCoilsBody wnet start values
              (encodeRegisters values)) rpt interval (fuel + 1) (k + 1)).1 := by
      simp [repeatLoop, hc1, hbk]
    obtain ⟨s, hs⟩ := repeatLoop_head (writeMultipleCoilsBody wnet start
      values (encodeRegisters values)) rpt interval fuel (k + 1) hc2
    obtain ⟨t2, ht2⟩ := writeMultipleCoilsBody_head wnet start values
      (encodeRegisters values) (k + 1)
    refine ⟨t2 ++ s, ?_⟩
    rw [h1, hs, ht2]
    simp
  · intro hk
    have hbk : writeMultipleRegistersBody wnet start values
        (encodeRegisters values) k
        = ([Event.writeMultipleRegistersCall start (values.length % 65536)
              (encodeRegisters values), Event.reportError e], false) := by
      simp [writeMultipleRegistersBody, hk]
    have h1 : (repeatLoop (writeMultipleRegistersBody wnet start values
          (encodeRegisters values)) rpt interval (fuel + 2) k).1
      = [Event.writeMultipleRegistersCall start (values.length % 65536)
           (encodeRegisters values), Event.reportError e]
        ++ Event.sleep interval
        :: (repeatLoop (writeMultipleRegistersBody wnet start values
              (encodeRegisters values)) rpt interval (fuel + 1) (k + 1)).1 := by
      simp [repeatLoop, hc1, hbk]
    obtain ⟨s, hs⟩ := repeatLoop_head (writeMultipleRegistersBody wnet start
      values (encodeRegisters values)) rpt interval fuel (k + 1) hc2
    obtain ⟨t2, ht2⟩ := writeMultipleRegistersBody_head wnet start values
      (encodeRegisters values) (k + 1)
    refine ⟨t2 ++ s, ?_⟩
    rw [h1, hs, ht2]
    simp
  · intro hall f
    induction f with
    | zero => intro i; rfl
    | succ f ihf =>
        intro i
        by_cases hci : loopCond rpt i = true
        · obtain ⟨e2, he2⟩ := hall i
          have hbi : readBody net fc start count u i
              = ([Event.readCall (funcCode fc) start count,
                  Event.reportError e2], false) := by
            simp [readBody, he2]
          simp [repeatLoop, hci, hbi, ihf (i + 1)]
        · rw [Bool.not_eq_true] at hci
          simp [repeatLoop, hci]

/-- C3 witness: with an always-erroring transport and unbounded repeat, the
trace from iteration 0 reports the error and proceeds to iteration 1 after
the sleep. -/
theorem c3_witness :
    ∃ t, (repeatLoop (readBody (fun _ => TransportResult.err 7)
        ReadFunc.readCoils 0 1 true) 0 9 (0 + 2) 0).1
      = Event.readCall 1 0 1 :: Event.reportError 7 :: Event.sleep 9
        :: Event.readCall 1 0 1 :: t := by
  have h := c3_error_continues (fun _ => TransportResult.err 7)
    (fun _ => WriteResult.ok) ReadFunc.readCoils 0 1 true 0 0 [] 0 7 0 9 0
    (by decide) (by decide)
  exact h.1 rfl

/-! ## Claim C6: unsupported operations rejected before the loop -/

/-- C6: any operation name outside the eight supported kinds makes main
terminate with the fatal "Invalid operation" configuration error, before
the repeat loop starts: the run produces no trace at all, so no transport
primitive is invoked and no connection attempt is made (the handler
construction preceding the switch performs no I/O). -/
theorem c6_unknown_operation_fatal (args : Args)
    (net : Nat → TransportResult) (wnet : Nat → WriteResult) (fuel : Nat)
    (h : args.operation ∉ supportedOperations) :
    mainRun args net wnet fuel = Except.error () := by
  simp [supportedOperations] at h
  push_neg at h
  obtain ⟨h1, h2, h3, h4, h5, h6, h7, h8⟩ := h
  simp [mainRun, h1, h2, h3, h4, h5, h6, h7, h8]

/-- C6 witness at the unsupported operation name read_foo. -/
theorem c6_witness :
    mainRun ⟨"read_foo", 0, 1, 0, [], 1, 0, true⟩
      (fun _ => TransportResult.err 0) (fun _ => WriteResult.ok) 1
      = Except.error () :=
  c6_unknown_operation_fatal _ _ _ _ (by decide)

/-! ## Claim C9: coil value pass-through -/

theorem writeSingleCoil_calls (wnet : Nat → WriteResult)
    (address value : Nat) (rpt : Int) (interval : Nat) :
    ∀ (fuel i a v : Nat),
      Event.writeSingleCoilCall a v
        ∈ (repeatLoop (writeSingleCoilBody wnet address value) rpt interval
            fuel i).1 →
      a = address ∧ v = value := by
  intro fuel
  induction fuel with
  | zero => intro i a v h; simp [repeatLoop] at h
  | succ fuel ih =>
      intro i a v h
      by_cases hc : loopCond rpt i = true
      · cases hw : wnet i with
        | err e =>
            simp [repeatLoop, hc, writeSingleCoilBody, hw] at h
            rcases h with ⟨rfl, rfl⟩ | h
            · exact ⟨rfl, rfl⟩
            · exact ih (i + 1) a v h
        | ok =>
            simp [repeatLoop, hc, writeSingleCoilBody, hw] at h
            rcases h with ⟨rfl, rfl⟩ | h
            · exact ⟨rfl, rfl⟩
            · exact ih (i + 1) a v h
      · rw [Bool.not_eq_true] at hc
        simp [repeatLoop, hc] at h

/-- C9: writeSingleCoil hands the configured 16-bit value to the
transport's write-single-coil primitive unmodified: every coil-write
transport call in any run carries exactly the input address and the input
value, for an arbitrary value — no validation or normalization to the
Modbus convention of 0xFF00 or 0x0000 takes place. -/
theorem c9_coil_passthrough (wnet : Nat → WriteResult) (address value : Nat)
    (rpt : Int) (interval fuel a v : Nat)
    (h : Event.writeSingleCoilCall a v
      ∈ (writeSingleCoil wnet address value rpt interval fuel).1) :
    a = address ∧ v = value :=
  writeSingleCoil_calls wnet address value rpt interval fuel 0 a v h

/-- C9 witness: the non-convention value 5 is sent verbatim. -/
theorem c9_witness :
    Event.writeSingleCoilCall 2 5
      ∈ (writeSingleCoil (fun _ => WriteResult.ok) 2 5 1 0 1).1
    ∧ (2 = 2 ∧ 5 = 5) :=
  ⟨by decide,
    c9_coil_passthrough (fun _ => WriteResult.ok) 2 5 1 0 1 2 5 (by decide)⟩

end ModbusClient
